import Mathlib

/-!
Verification development for the crypto candle-alert bot (`src/bot.py`).

The bot polls OHLC candle data, detects runs of consecutive bearish
candles, and sends a deduplicated "candle ends in ~5 minutes" alert per
timeframe.  Times are modelled as natural numbers of seconds since the
Unix epoch; prices as rationals.  Fallible operations return `Option`.
-/

namespace CryptoAlert

/-- A candle row of the dataframe built by `fetch_candlestick_data`
(`bot.py` lines 73-82): a start instant (seconds since epoch, the `time`
column after UTC localisation) and OHLC/volume values.  The derived
`is_bearish` column is the function `is_bearish` below, since the code
always sets it to `close < open` (line 82). -/
structure Candle where
  time : Nat
  «open» : ℚ
  high : ℚ
  low : ℚ
  close : ℚ
  volume : ℚ
deriving DecidableEq, Repr

/-- The `is_bearish` column: `df['close'] < df['open']` (`bot.py` line 82). -/
def is_bearish (c : Candle) : Bool :=
  decide (c.close < c.«open»)

/-- `check_consecutive_bearish` (`bot.py` lines 129-161).  Returns
`(matched, start_price, end_price, drop_percent)`.  The Python code
indexes `last_candles['open'].iloc[0]` and `['close'].iloc[-1]`, which
raises on an empty selection; that fallibility is modelled by `Option`
(`none` = uncaught `IndexError`, reachable only when `count = 0`). -/
def check_consecutive_bearish (df : List Candle) (count : Nat) :
    Option (Bool × ℚ × ℚ × ℚ) :=
  if df.length < count then
    some (false, 0, 0, 0)
  else
    let last_candles := df.drop (df.length - count)
    if last_candles.all is_bearish then
      match last_candles.head?, last_candles.getLast? with
      | some c0, some cn =>
          let start_price := c0.«open»
          let end_price := cn.close
          let drop_percent := (start_price - end_price) / start_price * 100
          some (true, start_price, end_price, drop_percent)
      | _, _ => none
    else
      some (false, 0, 0, 0)

/-- `int(now.timestamp() / 3600)` (`bot.py` line 176): whole hours since
the Unix epoch. -/
def hours_since_epoch (now : Nat) : Nat :=
  now / 3600

/-- `calculate_current_candle_times` (`bot.py` lines 163-184) with the
implicit wall-clock `now` passed explicitly, in seconds since epoch.
Returns `(current_candle_start, current_candle_end)` in seconds. -/
def calculate_current_candle_times (timeframe_hours now : Nat) : Nat × Nat :=
  let current_candle_start_hour :=
    (hours_since_epoch now / timeframe_hours) * timeframe_hours
  let current_candle_start := current_candle_start_hour * 3600
  let current_candle_end := current_candle_start + timeframe_hours * 3600
  (current_candle_start, current_candle_end)

/-- The end instant of the candle containing `now` (second component of
`calculate_current_candle_times`). -/
def candle_end (timeframe_hours now : Nat) : Nat :=
  (calculate_current_candle_times timeframe_hours now).2

/-- A raw record of the provider response `data['Data']['Data']`
(`bot.py` line 73): a `time` field in seconds since epoch and the
numeric OHLC/volume fields used by the dataframe construction. -/
structure RawRecord where
  time : Nat
  «open» : ℚ
  high : ℚ
  low : ℚ
  close : ℚ
  volumefrom : ℚ
  volumeto : ℚ
deriving DecidableEq, Repr

/-- Column selection and renaming of `bot.py` lines 77-78: keep
`time, open, high, low, close, volumefrom` and rename `volumefrom` to
`volume`. -/
def toCandle (r : RawRecord) : Candle :=
  ⟨r.time, r.«open», r.high, r.low, r.close, r.volumefrom⟩

instance : IsTotal Candle (fun a b => a.time ≤ b.time) :=
  ⟨fun a b => Nat.le_total a.time b.time⟩

instance : IsTrans Candle (fun a b => a.time ≤ b.time) :=
  ⟨fun _ _ _ hab hbc => Nat.le_trans hab hbc⟩

/-- The dataframe-building part of `fetch_candlestick_data`
(`bot.py` lines 73-88) on a successful provider response: attach the
epoch instants, select/rename columns, and `sort_values('time')`.
On an empty record list, `pd.DataFrame([])` has no columns and
`df['time']` raises a `KeyError`, modelled as `none`.  No
deduplication of equal `time` values and no validation of OHLC values
is performed. -/
def fetch_normalize (raw : List RawRecord) : Option (List Candle) :=
  match raw with
  | [] => none
  | _ => some (List.insertionSort (fun a b => a.time ≤ b.time) (raw.map toCandle))

/-- The alert-state dictionary `self.candle_end_alerts` (`bot.py`
line 39).  The Python key is the string
`f"timeframe_{timeframe_hours}_{current_candle_end.strftime('%Y%m%d%H%M')}"`;
since candle ends are whole hours, the string is uniquely determined by
the pair `(timeframe_hours, candle_end_seconds)`, which we use as key.
The value is the recording instant `current_time`, in seconds. -/
abbrev AlertMap : Type :=
  List ((Nat × Nat) × Nat)

/-- First-match lookup in the alert-state map (the dictionary has unique
keys, so first match is the dictionary entry). -/
def alertLookup (st : AlertMap) (k : Nat × Nat) : Option Nat :=
  match st with
  | [] => none
  | (k', t) :: rest => if k' = k then some t else alertLookup rest k

/-- `_clean_old_alerts` (`bot.py` lines 421-436): drop every entry whose
recorded instant is more than 86400 seconds (24 h) before `now`. -/
def clean_old_alerts (now : Nat) (st : AlertMap) : AlertMap :=
  st.filter (fun kv => decide (now - kv.2 ≤ 86400))

/-- The `matched` component of `check_consecutive_bearish`, `false` on
the unreachable index-error case. -/
def bearish_matched (df : List Candle) (count : Nat) : Bool :=
  match check_consecutive_bearish df count with
  | some (b, _, _, _) => b
  | none => false

/-- The pattern part of `generate_coin_info` (`bot.py` lines 252-278):
run the detector for run lengths 3-7 and keep only the longest match
(the `elif` chain), as the list of matched run lengths. -/
def generate_patterns (df : List Candle) : List Nat :=
  if bearish_matched df 7 then [7]
  else if bearish_matched df 6 then [6]
  else if bearish_matched df 5 then [5]
  else if bearish_matched df 4 then [4]
  else if bearish_matched df 3 then [3]
  else []

/-- The per-symbol collection loop of `check_timeframe_alerts`
(`bot.py` lines 379-394): each symbol's fetch/price/info step either
succeeds with a dataframe (modelled by `some df`, yielding that
symbol's coin info) or raises (`none`), in which case the exception is
caught at the per-symbol boundary and the loop continues with the
remaining symbols. -/
def collect_coins_info (fetches : List (Option (List Candle))) : List (List Nat) :=
  fetches.filterMap (fun o => o.map generate_patterns)

/-- One evaluation of `check_timeframe_alerts` (`bot.py` lines 352-419)
for timeframe `tf` at instant `now` (seconds since epoch), with the
per-symbol fetch outcomes `fetches` and the delivery outcome
`deliveryOk` of `bot.send_message` (whose failure is caught inside
`send_unified_alert`, lines 345-350).  Returns the new alert-state map,
whether the unified alert was emitted (i.e. `send_unified_alert` was
invoked and the key recorded), and whether it was actually delivered.
The `3 <= minutes_to_end <= 7` float test equals
`180 ≤ end - now ≤ 420` on the second scale; `current_time.minute == 0`
is `(now / 60) % 60 = 0`. -/
def check_timeframe_alerts (tf now : Nat) (fetches : List (Option (List Candle)))
    (deliveryOk : Bool) (st : AlertMap) : AlertMap × Bool × Bool :=
  let e := candle_end tf now
  if 180 ≤ e - now ∧ e - now ≤ 420 then
    if alertLookup st (tf, e) = none then
      let coins_info := collect_coins_info fetches
      if coins_info.isEmpty then
        (if (now / 60) % 60 = 0 then clean_old_alerts now st else st, false, false)
      else
        let st1 : AlertMap := ((tf, e), now) :: st
        (if (now / 60) % 60 = 0 then clean_old_alerts now st1 else st1, true, deliveryOk)
    else
      (st, false, false)
  else
    (st, false, false)

/-- A pre-close evaluation instance: timeframe, instant (seconds since
epoch), and per-symbol fetch outcomes. -/
abbrev Poll : Type :=
  Nat × Nat × List (Option (List Candle))

/-- The number of emissions for the alert key `(tf, e)` along a sequence
of evaluations, threading the alert-state map as `check_timeframe_alerts`
does. -/
def emissions_for (tf e : Nat) (deliveryOk : Bool) :
    List Poll → AlertMap → Nat
  | [], _ => 0
  | p :: rest, st =>
      let r := check_timeframe_alerts p.1 p.2.1 p.2.2 deliveryOk st
      (if r.2.1 && (decide (p.1 = tf) && decide (candle_end p.1 p.2.1 = e)) then 1 else 0)
        + emissions_for tf e deliveryOk rest r.1

/-- The per-cycle loop of `run` (`bot.py` lines 494-499): evaluate
`check_timeframe_alerts` for every timeframe in order, threading the
alert state, and record each evaluation's emission flag. -/
def check_cycle (deliveryOk : Bool) :
    List Poll → AlertMap → AlertMap × List Bool
  | [], st => (st, [])
  | p :: rest, st =>
      let r := check_timeframe_alerts p.1 p.2.1 p.2.2 deliveryOk st
      let r' := check_cycle deliveryOk rest r.1
      (r'.1, r.2.1 :: r'.2)

/-- The rate-limit branch of the outer exception handler of
`check_timeframe_alerts` (`bot.py` lines 410-412): when the error text
contains "rate limit", `error_wait_time = max(15, error_wait_time * 2)`;
otherwise the wait is left unchanged. -/
def handle_check_error (isRateLimit : Bool) (error_wait_time : Nat) : Nat :=
  if isRateLimit then max 15 (error_wait_time * 2) else error_wait_time

/-- The end-of-cycle wait handling of `run` (`bot.py` lines 506-511):
if `error_wait_time > 0` the loop sleeps that many minutes and resets it
to 0; otherwise it is left untouched (hence still its old value). -/
def end_of_cycle_wait (error_wait_time : Nat) : Nat :=
  if 0 < error_wait_time then 0 else error_wait_time

/-- Modelled from the spec: the last two candles of the series
(including the possibly still-forming one) are both down.  This
predicate appears in the spec's pre-close precondition ("only evaluated
when the current, possibly incomplete last two candles are both down")
but has no counterpart in `src/bot.py`. -/
def last_two_down (df : List Candle) : Bool :=
  (df.drop (df.length - 2)).length = 2 && (df.drop (df.length - 2)).all is_bearish

/-- Modelled from the spec: the streak-confirmed state machine of
section 4.4 (states `IDLE`/`COOLDOWN`, the state being
`last_fired_at : Option instant`), absent from `src/bot.py`.  On a
matched detection whose last candle is complete, fire iff idle or the
cooldown has elapsed, setting `last_fired_at := now`; otherwise leave
the state unchanged with no emission.  Returns (new state, emitted). -/
def streak_machine_step (cooldown now : Nat) (matched lastComplete : Bool)
    (last_fired_at : Option Nat) : Option Nat × Bool :=
  if matched && lastComplete then
    match last_fired_at with
    | none => (some now, true)
    | some t => if cooldown ≤ now - t then (some now, true) else (some t, false)
  else
    (last_fired_at, false)

/-- The three-candle example frame of the spec: opens `[100, 90, 80]`,
closes `[90, 80, 70]`. -/
def dfEx : List Candle :=
  [⟨0, 100, 100, 70, 90, 1⟩, ⟨3600, 90, 90, 60, 80, 1⟩, ⟨7200, 80, 80, 50, 70, 1⟩]

/-! ## Helper lemmas about the detector -/

theorem check_consecutive_bearish_of_short (df : List Candle) (count : Nat)
    (h : df.length < count) :
    check_consecutive_bearish df count = some (false, 0, 0, 0) := by
  simp [check_consecutive_bearish, h]

theorem check_consecutive_bearish_of_not_all (df : List Candle) (count : Nat)
    (h : (df.drop (df.length - count)).all is_bearish = false) :
    check_consecutive_bearish df count = some (false, 0, 0, 0) := by
  by_cases hlen : df.length < count
  · simp [check_consecutive_bearish, hlen]
  · simp [check_consecutive_bearish, hlen, h]

theorem check_consecutive_bearish_of_all (df : List Candle) (count : Nat)
    (hk : 0 < count) (hlen : count ≤ df.length)
    (h : (df.drop (df.length - count)).all is_bearish = true) :
    ∃ c0 cn, (df.drop (df.length - count)).head? = some c0 ∧
      (df.drop (df.length - count)).getLast? = some cn ∧
      check_consecutive_bearish df count =
        some (true, c0.«open», cn.close, (c0.«open» - cn.close) / c0.«open» * 100) := by
  have hnl : ¬ df.length < count := Nat.not_lt.mpr hlen
  have htl : (df.drop (df.length - count)).length = count := by
    rw [List.length_drop]
    omega
  have hne : df.drop (df.length - count) ≠ [] := by
    intro hnil
    rw [hnil] at htl
    simp at htl
    omega
  cases hh : (df.drop (df.length - count)).head? with
  | none => exact absurd (List.head?_eq_none_iff.mp hh) hne
  | some c0 =>
    cases hg : (df.drop (df.length - count)).getLast? with
    | none => exact absurd (List.getLast?_eq_none_iff.mp hg) hne
    | some cn =>
      refine ⟨c0, cn, rfl, rfl, ?_⟩
      simp only [check_consecutive_bearish, hnl, if_false, h, if_true]
      rw [hh, hg]

/-- C2: Detector contract.  For every frame with at least `k` rows
(`k` a run length, hence positive), `check_consecutive_bearish df k`
returns `matched = true` iff each of the last `k` candles has
`close < open`; changing any one of those candles' close to a value
`≥` its open makes it `false`; when matched it returns
`start_price` = open of the first of those `k` candles, `end_price` =
close of the last, and `drop_percent = (start - end) / start * 100`;
and the example frame with opens `[100, 90, 80]`, closes `[90, 80, 70]`
and `k = 3` yields `drop_percent = 30`. -/
theorem detector_contract (df : List Candle) (k : Nat) (hk : 0 < k) (hlen : k ≤ df.length) :
    (∃ out, check_consecutive_bearish df k = some out ∧
      (out.1 = true ↔ ∀ c ∈ df.drop (df.length - k), c.close < c.«open»))
    ∧ (∀ j (hj : j < df.length), df.length - k ≤ j → ∀ v : ℚ,
        (df.get ⟨j, hj⟩).«open» ≤ v →
        ∃ out, check_consecutive_bearish
            (df.set j { df.get ⟨j, hj⟩ with close := v }) k = some out ∧ out.1 = false)
    ∧ ((∀ c ∈ df.drop (df.length - k), c.close < c.«open») →
        ∃ c0 cn, (df.drop (df.length - k)).head? = some c0 ∧
          (df.drop (df.length - k)).getLast? = some cn ∧
          check_consecutive_bearish df k =
            some (true, c0.«open», cn.close, (c0.«open» - cn.close) / c0.«open» * 100))
    ∧ check_consecutive_bearish dfEx 3 = some (true, 100, 70, 30) := by
  refine ⟨?_, ?_, ?_, ?_⟩
  · by_cases hall : (df.drop (df.length - k)).all is_bearish
    · obtain ⟨c0, cn, _, _, hres⟩ := check_consecutive_bearish_of_all df k hk hlen hall
      refine ⟨_, hres, ?_⟩
      simp only [List.all_eq_true, is_bearish, decide_eq_true_eq] at hall
      simpa using hall
    · rw [Bool.not_eq_true] at hall
      refine ⟨_, check_consecutive_bearish_of_not_all df k hall, ?_⟩
      simp only [List.all_eq_false, is_bearish, decide_eq_true_eq] at hall
      obtain ⟨c, hc, hcn⟩ := hall
      simp only [show (false = true) = False by simp, false_iff]
      intro hforall
      exact hcn (hforall c hc)
  · intro j hj hjk v hv
    have hlen' : (df.set j { df.get ⟨j, hj⟩ with close := v }).length = df.length :=
      List.length_set df j _
    refine ⟨(false, 0, 0, 0), ?_, rfl⟩
    apply check_consecutive_bearish_of_not_all
    rw [List.all_eq_false]
    have hmem : { df.get ⟨j, hj⟩ with close := v } ∈
        (df.set j { df.get ⟨j, hj⟩ with close := v }).drop
          ((df.set j { df.get ⟨j, hj⟩ with close := v }).length - k) := by
      apply List.getElem?_mem (n := j - (df.length - k))
      rw [List.getElem?_drop]
      have heq : (df.set j { df.get ⟨j, hj⟩ with close := v }).length - k
          + (j - (df.length - k)) = j := by
        rw [hlen']
        omega
      rw [heq]
      exact List.getElem?_set_self hj
    refine ⟨_, hmem, ?_⟩
    simp only [is_bearish, Bool.not_eq_true, decide_eq_false_iff_not, not_lt]
    exact hv
  · intro hall
    apply check_consecutive_bearish_of_all df k hk hlen
    simp only [List.all_eq_true, is_bearish, decide_eq_true_eq]
    exact hall
  · obtain ⟨c0, cn, h0, hn, hres⟩ :=
      check_consecutive_bearish_of_all dfEx 3 (by decide) (by decide) (by decide)
    have hc0 : c0 = ⟨0, 100, 100, 70, 90, 1⟩ := by
      simpa [dfEx] using h0.symm
    have hcn : cn = ⟨7200, 80, 80, 50, 70, 1⟩ := by
      simpa [dfEx] using hn.symm
    rw [hres, hc0, hcn]
    norm_num

/-- C2 witness: the theorem applied to the spec's example frame. -/
theorem detector_contract_witness :
    check_consecutive_bearish dfEx 3 = some (true, 100, 70, 30) :=
  (detector_contract dfEx 3 (by decide) (by decide)).2.2.2

/-- C10: Totality of the detector on short or non-matching input: with
fewer rows than `count` the result is `(false, 0, 0, 0)` (a returned
value, not a raised error), and likewise whenever the last `count`
candles are not all down. -/
theorem detector_total_on_short (df : List Candle) (count : Nat) :
    (df.length < count → check_consecutive_bearish df count = some (false, 0, 0, 0))
    ∧ ((df.drop (df.length - count)).all is_bearish = false →
        check_consecutive_bearish df count = some (false, 0, 0, 0)) :=
  ⟨check_consecutive_bearish_of_short df count, check_consecutive_bearish_of_not_all df count⟩

/-- C10 witness: a short frame and a non-matching (bullish) frame. -/
theorem detector_total_on_short_witness :
    check_consecutive_bearish [] 3 = some (false, 0, 0, 0)
    ∧ check_consecutive_bearish [⟨0, 100, 110, 95, 105, 1⟩] 1 = some (false, 0, 0, 0) :=
  ⟨(detector_total_on_short [] 3).1 (by decide),
   (detector_total_on_short [⟨0, 100, 110, 95, 105, 1⟩] 1).2 (by decide)⟩

/-- C3: Candle-boundary arithmetic: the bounds are
`start = (hours_since_epoch now / T) * T` hours after the epoch and
`end = start + T` hours; two instants in the same `T`-hour-aligned
window get equal bounds; for `T = 4`, hours `0, 3, 4, 7, 8` give start
hours `0, 0, 4, 4, 8`. -/
theorem candle_bounds_spec (timeframe_hours : Nat) (_htf : 0 < timeframe_hours) :
    (∀ now, calculate_current_candle_times timeframe_hours now =
        ((now / 3600 / timeframe_hours) * timeframe_hours * 3600,
         (now / 3600 / timeframe_hours) * timeframe_hours * 3600 + timeframe_hours * 3600))
    ∧ (∀ now1 now2, now1 / (timeframe_hours * 3600) = now2 / (timeframe_hours * 3600) →
        calculate_current_candle_times timeframe_hours now1 =
          calculate_current_candle_times timeframe_hours now2)
    ∧ ((calculate_current_candle_times 4 (0 * 3600)).1 = 0 * 3600
       ∧ (calculate_current_candle_times 4 (3 * 3600)).1 = 0 * 3600
       ∧ (calculate_current_candle_times 4 (4 * 3600)).1 = 4 * 3600
       ∧ (calculate_current_candle_times 4 (7 * 3600)).1 = 4 * 3600
       ∧ (calculate_current_candle_times 4 (8 * 3600)).1 = 8 * 3600) := by
  refine ⟨fun now => rfl, fun now1 now2 h => ?_, by decide⟩
  have h1 : now1 / 3600 / timeframe_hours = now2 / 3600 / timeframe_hours := by
    rw [Nat.div_div_eq_div_mul, Nat.div_div_eq_div_mul, Nat.mul_comm 3600 timeframe_hours]
    exact h
  simp only [calculate_current_candle_times, hours_since_epoch, h1]

/-- C3 witness: two instants inside the same 4-hour window. -/
theorem candle_bounds_spec_witness :
    calculate_current_candle_times 4 10000 = calculate_current_candle_times 4 12000 :=
  (candle_bounds_spec 4 (by decide)).2.1 10000 12000 (by decide)

/-- C6: Backoff evolution: a rate-limit error updates the wait to
`max(15, 2 * previous)`; three consecutive rate-limit updates from zero
give the waits `15, 2 * 15, 4 * 15`; and the end-of-cycle handling
always leaves the wait at 0 (in particular after a successful cycle). -/
theorem backoff_spec :
    (∀ w, handle_check_error true w = max 15 (2 * w))
    ∧ handle_check_error true 0 = 15
    ∧ handle_check_error true (handle_check_error true 0) = 2 * 15
    ∧ handle_check_error true (handle_check_error true (handle_check_error true 0)) = 4 * 15
    ∧ (∀ w, end_of_cycle_wait w = 0) := by
  refine ⟨fun w => by simp [handle_check_error, Nat.mul_comm], by decide, by decide, by decide,
    fun w => ?_⟩
  unfold end_of_cycle_wait
  split_ifs with h
  · rfl
  · omega

/-- C8: GC threshold: a pass keeps exactly the entries recorded at most
86400 seconds before `now`; concretely, an entry recorded 25 hours ago
is removed while one recorded 23 hours ago is retained. -/
theorem gc_threshold_spec (now : Nat) (st : AlertMap) (kv : (Nat × Nat) × Nat) :
    (kv ∈ clean_old_alerts now st ↔ kv ∈ st ∧ ¬ 86400 < now - kv.2)
    ∧ clean_old_alerts 360000 [((2, 273600), 270000), ((4, 361200), 277200)]
        = [((4, 361200), 277200)] := by
  constructor
  · rw [clean_old_alerts, List.mem_filter]
    simp [Nat.not_lt]
  · decide

/-- C5: Streak-confirmed cooldown idempotence, on the machine modelled
from the spec: firing from idle records `last_fired_at = now`, and a
second matching evaluation within the cooldown window is suppressed
with no emission and no state change. -/
theorem streak_cooldown_idempotent (cooldown now now' : Nat)
    (hlt : now' - now < cooldown) :
    streak_machine_step cooldown now true true none = (some now, true)
    ∧ streak_machine_step cooldown now' true true
        (streak_machine_step cooldown now true true none).1 = (some now, false)
    ∧ (∀ t, now' - t < cooldown →
        streak_machine_step cooldown now' true true (some t) = (some t, false)) := by
  refine ⟨rfl, ?_, fun t ht => ?_⟩
  · simp only [streak_machine_step, Bool.and_self, if_true]
    rw [if_neg (by omega)]
  · simp only [streak_machine_step, Bool.and_self, if_true]
    rw [if_neg (by omega)]

/-- C5 witness: a fire at `t = 1000` followed by a matching evaluation
at `t = 1500`, inside a 7200-second cooldown. -/
theorem streak_cooldown_idempotent_witness :
    streak_machine_step 7200 1500 true true
      (streak_machine_step 7200 1000 true true none).1 = (some 1000, false) :=
  (streak_cooldown_idempotent 7200 1000 1500 (by decide)).2.1

/-- C7 counterexample: two raw records sharing the start `3600` are
both retained (no collapse of duplicate starts), and a record with
non-positive OHLC values is accepted rather than rejected. -/
theorem series_normalization_cex :
    fetch_normalize [⟨3600, 2, 2, 1, 1, 5, 5⟩, ⟨3600, 3, 3, 2, 2, 6, 6⟩]
      = some [⟨3600, 2, 2, 1, 1, 5⟩, ⟨3600, 3, 3, 2, 2, 6⟩]
    ∧ fetch_normalize [⟨0, -1, -1, -1, -1, 1, 1⟩] = some [⟨0, -1, -1, -1, -1, 1⟩] :=
  ⟨rfl, rfl⟩

/-- C7 (amended): building the series from raw provider records
attaches explicit instants and sorts ascending by start time; it keeps
every record (duplicate start values are all retained, not collapsed),
performs no validation of OHLC values, and an empty input fails (the
missing-column access raises) rather than producing a series. -/
theorem series_normalization_amended (raw : List RawRecord) (hne : raw ≠ []) :
    (∃ df, fetch_normalize raw = some df
      ∧ List.Sorted (fun a b : Candle => a.time ≤ b.time) df
      ∧ df.Perm (raw.map toCandle))
    ∧ fetch_normalize [] = none := by
  refine ⟨?_, rfl⟩
  match raw, hne with
  | r :: rest, _ =>
    exact ⟨_, rfl, List.sorted_insertionSort _ _, List.perm_insertionSort _ _⟩

/-- C7 witness: the amended theorem applied to a one-record input. -/
theorem series_normalization_amended_witness :
    (∃ df, fetch_normalize [⟨0, 1, 1, 1, 1, 1, 1⟩] = some df
      ∧ List.Sorted (fun a b : Candle => a.time ≤ b.time) df
      ∧ df.Perm ([(⟨0, 1, 1, 1, 1, 1, 1⟩ : RawRecord)].map toCandle))
    ∧ fetch_normalize [] = none :=
  series_normalization_amended [⟨0, 1, 1, 1, 1, 1, 1⟩] (by simp)

/-- C4 counterexample: at instant 6900 (300 s before the 2-hour candle
end 7200, inside the 3-7 minute band) with a fresh alert state and one
successfully fetched symbol whose last two candles are both up, the
pre-close alert is still emitted: the code never checks candle
direction on the pre-close path. -/
theorem preclose_direction_cex :
    (check_timeframe_alerts 2 6900
        [some [⟨0, 100, 110, 95, 105, 1⟩, ⟨7200, 105, 115, 100, 110, 1⟩]] true []).2.1 = true
    ∧ last_two_down [⟨0, 100, 110, 95, 105, 1⟩, ⟨7200, 105, 115, 100, 110, 1⟩] = false := by
  constructor
  · decide
  · decide

/-! ## Helper lemmas about the alert-state map and the pre-close step -/

theorem alertLookup_cons_self (k : Nat × Nat) (t : Nat) (rest : AlertMap) :
    alertLookup ((k, t) :: rest) k = some t := by
  simp [alertLookup]

theorem alertLookup_cons_ne (k' k : Nat × Nat) (t : Nat) (rest : AlertMap) (h : k' ≠ k) :
    alertLookup ((k', t) :: rest) k = alertLookup rest k := by
  simp [alertLookup, h]

theorem clean_old_alerts_cons (now : Nat) (kv : (Nat × Nat) × Nat) (rest : AlertMap) :
    clean_old_alerts now (kv :: rest) =
      if now - kv.2 ≤ 86400 then kv :: clean_old_alerts now rest
      else clean_old_alerts now rest := by
  by_cases h : now - kv.2 ≤ 86400
  · rw [clean_old_alerts, List.filter_cons, if_pos (by simpa using h), if_pos h]
    rfl
  · rw [clean_old_alerts, List.filter_cons, if_neg (by simpa using h), if_neg h]
    rfl

theorem now_lt_candle_end (tf now : Nat) (htf : 0 < tf) : now < candle_end tf now := by
  unfold candle_end calculate_current_candle_times hours_since_epoch
  simp only
  have h1 : now < (now / 3600 + 1) * 3600 := by
    have h2 := Nat.div_add_mod now 3600
    have h3 : now % 3600 < 3600 := Nat.mod_lt now (by norm_num)
    omega
  have h4 : now / 3600 + 1 ≤ (now / 3600 / tf + 1) * tf := by
    have h5 := Nat.div_add_mod (now / 3600) tf
    have h6 : now / 3600 % tf < tf := Nat.mod_lt _ htf
    nlinarith
  calc now < (now / 3600 + 1) * 3600 := h1
    _ ≤ ((now / 3600 / tf + 1) * tf) * 3600 := Nat.mul_le_mul_right 3600 h4
    _ = now / 3600 / tf * tf * 3600 + tf * 3600 := by ring

theorem alertLookup_clean_some (now : Nat) (st : AlertMap) (k : Nat × Nat) (r : Nat)
    (h : alertLookup st k = some r) (hrec : now - r ≤ 86400) :
    alertLookup (clean_old_alerts now st) k = some r := by
  induction st with
  | nil => simp [alertLookup] at h
  | cons kv rest ih =>
    obtain ⟨k', t⟩ := kv
    rw [clean_old_alerts_cons]
    by_cases hk : k' = k
    · subst hk
      rw [alertLookup_cons_self] at h
      obtain rfl : t = r := by injection h
      rw [if_pos hrec, alertLookup_cons_self]
    · rw [alertLookup_cons_ne _ _ _ _ hk] at h
      by_cases hkeep : now - t ≤ 86400
      · rw [if_pos hkeep, alertLookup_cons_ne _ _ _ _ hk]
        exact ih h
      · rw [if_neg hkeep]
        exact ih h

theorem alertLookup_clean_none (now : Nat) (st : AlertMap) (k : Nat × Nat)
    (h : alertLookup st k = none) :
    alertLookup (clean_old_alerts now st) k = none := by
  induction st with
  | nil => simp [clean_old_alerts, alertLookup]
  | cons kv rest ih =>
    obtain ⟨k', t⟩ := kv
    rw [clean_old_alerts_cons]
    by_cases hk : k' = k
    · subst hk
      rw [alertLookup_cons_self] at h
      exact absurd h (by simp)
    · rw [alertLookup_cons_ne _ _ _ _ hk] at h
      by_cases hkeep : now - t ≤ 86400
      · rw [if_pos hkeep, alertLookup_cons_ne _ _ _ _ hk]
        exact ih h
      · rw [if_neg hkeep]
        exact ih h

theorem check_of_lookup_some (tf now : Nat) (fetches : List (Option (List Candle)))
    (deliveryOk : Bool) (st : AlertMap) (r : Nat)
    (hs : alertLookup st (tf, candle_end tf now) = some r) :
    check_timeframe_alerts tf now fetches deliveryOk st = (st, false, false) := by
  simp only [check_timeframe_alerts, hs]
  split_ifs <;> simp_all

theorem check_of_out_of_band (tf now : Nat) (fetches : List (Option (List Candle)))
    (deliveryOk : Bool) (st : AlertMap)
    (h : ¬ (180 ≤ candle_end tf now - now ∧ candle_end tf now - now ≤ 420)) :
    check_timeframe_alerts tf now fetches deliveryOk st = (st, false, false) := by
  simp only [check_timeframe_alerts, if_neg h]

theorem check_emit_eq (tf now : Nat) (fetches : List (Option (List Candle)))
    (deliveryOk : Bool) (st : AlertMap)
    (hband : 180 ≤ candle_end tf now - now ∧ candle_end tf now - now ≤ 420)
    (hnone : alertLookup st (tf, candle_end tf now) = none)
    (hcoins : (collect_coins_info fetches).isEmpty = false) :
    check_timeframe_alerts tf now fetches deliveryOk st =
      (if (now / 60) % 60 = 0
        then clean_old_alerts now (((tf, candle_end tf now), now) :: st)
        else ((tf, candle_end tf now), now) :: st, true, deliveryOk) := by
  simp only [check_timeframe_alerts, if_pos hband, hnone, if_pos rfl, hcoins,
    Bool.false_eq_true, if_false]
  simp

theorem check_noemit_eq (tf now : Nat) (fetches : List (Option (List Candle)))
    (deliveryOk : Bool) (st : AlertMap)
    (hband : 180 ≤ candle_end tf now - now ∧ candle_end tf now - now ≤ 420)
    (hnone : alertLookup st (tf, candle_end tf now) = none)
    (hcoins : (collect_coins_info fetches).isEmpty = true) :
    check_timeframe_alerts tf now fetches deliveryOk st =
      (if (now / 60) % 60 = 0 then clean_old_alerts now st else st, false, false) := by
  simp only [check_timeframe_alerts, if_pos hband, hnone, if_pos rfl, hcoins, if_true]

theorem alertLookup_after_emit (tf now : Nat) (fetches : List (Option (List Candle)))
    (deliveryOk : Bool) (st : AlertMap)
    (hband : 180 ≤ candle_end tf now - now ∧ candle_end tf now - now ≤ 420)
    (hnone : alertLookup st (tf, candle_end tf now) = none)
    (hcoins : (collect_coins_info fetches).isEmpty = false) :
    alertLookup (check_timeframe_alerts tf now fetches deliveryOk st).1
      (tf, candle_end tf now) = some now := by
  rw [check_emit_eq tf now fetches deliveryOk st hband hnone hcoins]
  simp only
  split_ifs with hmin
  · exact alertLookup_clean_some now _ _ now (by simp [alertLookup]) (by omega)
  · simp [alertLookup]

/-- C4 (amended): the pre-close path of `check_timeframe_alerts` does
not inspect candle direction at all: an alert is emitted iff the poll
lands in the 3-7 minute band before the candle end, no alert for that
candle end is recorded, and at least one symbol's data collection
succeeded — regardless of whether the last two candles are down. -/
theorem preclose_emission_iff (tf now : Nat) (fetches : List (Option (List Candle)))
    (deliveryOk : Bool) (st : AlertMap) :
    (check_timeframe_alerts tf now fetches deliveryOk st).2.1 = true ↔
      (180 ≤ candle_end tf now - now ∧ candle_end tf now - now ≤ 420
       ∧ alertLookup st (tf, candle_end tf now) = none
       ∧ collect_coins_info fetches ≠ []) := by
  by_cases h1 : 180 ≤ candle_end tf now - now ∧ candle_end tf now - now ≤ 420
  · cases hlk : alertLookup st (tf, candle_end tf now) with
    | some r =>
      rw [check_of_lookup_some tf now fetches deliveryOk st r hlk]
      simp [hlk]
    | none =>
      cases hc : (collect_coins_info fetches).isEmpty with
      | true =>
        rw [check_noemit_eq tf now fetches deliveryOk st h1 hlk hc]
        rw [List.isEmpty_iff] at hc
        simp [hc]
      | false =>
        rw [check_emit_eq tf now fetches deliveryOk st h1 hlk hc]
        have hcne : collect_coins_info fetches ≠ [] := by
          intro hnil
          rw [hnil] at hc
          simp at hc
        simp [h1.1, h1.2, hlk, hcne]
  · rw [check_of_out_of_band tf now fetches deliveryOk st h1]
    constructor
    · intro h
      simp at h
    · rintro ⟨ha, hb, -, -⟩
      exact absurd ⟨ha, hb⟩ h1

theorem alertLookup_step_some (tfk ek r tf' now : Nat)
    (fetches : List (Option (List Candle))) (dOk : Bool) (st : AlertMap)
    (hr : alertLookup st (tfk, ek) = some r) (hrec : now - r ≤ 86400) :
    alertLookup (check_timeframe_alerts tf' now fetches dOk st).1 (tfk, ek) = some r := by
  by_cases hband : 180 ≤ candle_end tf' now - now ∧ candle_end tf' now - now ≤ 420
  · cases hlk : alertLookup st (tf', candle_end tf' now) with
    | some r' =>
      rw [check_of_lookup_some tf' now fetches dOk st r' hlk]
      exact hr
    | none =>
      have hne : (tf', candle_end tf' now) ≠ (tfk, ek) := by
        intro hcontra
        rw [hcontra, hr] at hlk
        exact Option.noConfusion hlk
      cases hc : (collect_coins_info fetches).isEmpty with
      | true =>
        rw [check_noemit_eq tf' now fetches dOk st hband hlk hc]
        simp only
        split_ifs
        · exact alertLookup_clean_some now st _ r hr hrec
        · exact hr
      | false =>
        rw [check_emit_eq tf' now fetches dOk st hband hlk hc]
        simp only
        split_ifs
        · apply alertLookup_clean_some now _ _ r _ hrec
          rw [alertLookup_cons_ne _ _ _ _ hne]
          exact hr
        · rw [alertLookup_cons_ne _ _ _ _ hne]
          exact hr
  · rw [check_of_out_of_band tf' now fetches dOk st hband]
    exact hr

theorem alertLookup_step_none (tfk ek tf' now : Nat)
    (fetches : List (Option (List Candle))) (dOk : Bool) (st : AlertMap)
    (h : alertLookup st (tfk, ek) = none)
    (hne : (tf', candle_end tf' now) ≠ (tfk, ek)) :
    alertLookup (check_timeframe_alerts tf' now fetches dOk st).1 (tfk, ek) = none := by
  by_cases hband : 180 ≤ candle_end tf' now - now ∧ candle_end tf' now - now ≤ 420
  · cases hlk : alertLookup st (tf', candle_end tf' now) with
    | some r' =>
      rw [check_of_lookup_some tf' now fetches dOk st r' hlk]
      exact h
    | none =>
      cases hc : (collect_coins_info fetches).isEmpty with
      | true =>
        rw [check_noemit_eq tf' now fetches dOk st hband hlk hc]
        simp only
        split_ifs
        · exact alertLookup_clean_none now st _ h
        · exact h
      | false =>
        rw [check_emit_eq tf' now fetches dOk st hband hlk hc]
        simp only
        split_ifs
        · apply alertLookup_clean_none
          rw [alertLookup_cons_ne _ _ _ _ hne]
          exact h
        · rw [alertLookup_cons_ne _ _ _ _ hne]
          exact h
  · rw [check_of_out_of_band tf' now fetches dOk st hband]
    exact h

theorem emissions_for_cons (tfk ek : Nat) (dOk : Bool) (p : Poll) (rest : List Poll)
    (st : AlertMap) :
    emissions_for tfk ek dOk (p :: rest) st =
      (if (check_timeframe_alerts p.1 p.2.1 p.2.2 dOk st).2.1
          && (decide (p.1 = tfk) && decide (candle_end p.1 p.2.1 = ek)) then 1 else 0)
        + emissions_for tfk ek dOk rest (check_timeframe_alerts p.1 p.2.1 p.2.2 dOk st).1 :=
  rfl

theorem emissions_for_zero_of_late (tfk ek : Nat) (htf : 0 < tfk) (dOk : Bool)
    (polls : List Poll) :
    ∀ st : AlertMap, (∀ p ∈ polls, ek < p.2.1) →
      emissions_for tfk ek dOk polls st = 0 := by
  induction polls with
  | nil => intro st _; rfl
  | cons p rest ih =>
    intro st h
    rw [emissions_for_cons]
    have hz : (decide (p.1 = tfk) && decide (candle_end p.1 p.2.1 = ek)) = false := by
      by_cases hp : p.1 = tfk
      · have hlt := now_lt_candle_end p.1 p.2.1 (hp ▸ htf)
        have he := h p (List.mem_cons_self p rest)
        have hneq : candle_end p.1 p.2.1 ≠ ek := by omega
        simp [hneq]
      · simp [hp]
    rw [hz, Bool.and_false]
    simp only [Bool.false_eq_true, if_false, Nat.zero_add]
    exact ih _ (fun q hq => h q (List.mem_cons_of_mem p hq))

theorem emissions_for_zero_after_record (tfk ek : Nat) (htf : 0 < tfk) (dOk : Bool)
    (polls : List Poll) :
    ∀ (st : AlertMap) (r : Nat),
      alertLookup st (tfk, ek) = some r →
      ek ≤ r + 420 →
      (∀ p ∈ polls, r ≤ p.2.1) →
      polls.Pairwise (fun a b : Poll => a.2.1 ≤ b.2.1) →
      emissions_for tfk ek dOk polls st = 0 := by
  induction polls with
  | nil => intro st r _ _ _ _; rfl
  | cons p rest ih =>
    intro st r hr hre hall hmono
    rw [List.pairwise_cons] at hmono
    obtain ⟨hhead, htail⟩ := hmono
    rw [emissions_for_cons]
    have hcontrib : (if (check_timeframe_alerts p.1 p.2.1 p.2.2 dOk st).2.1
        && (decide (p.1 = tfk) && decide (candle_end p.1 p.2.1 = ek)) then 1 else 0) = 0 := by
      by_cases hkey : p.1 = tfk ∧ candle_end p.1 p.2.1 = ek
      · have hlkr : alertLookup st (p.1, candle_end p.1 p.2.1) = some r := by
          rw [hkey.2, hkey.1]
          exact hr
        rw [check_of_lookup_some p.1 p.2.1 p.2.2 dOk st r hlkr]
        simp
      · have hz : (decide (p.1 = tfk) && decide (candle_end p.1 p.2.1 = ek)) = false := by
          rcases not_and_or.mp hkey with h | h <;> simp [h]
        rw [hz, Bool.and_false]
        simp
    rw [hcontrib, Nat.zero_add]
    by_cases hrec : p.2.1 - r ≤ 86400
    · have hpres := alertLookup_step_some tfk ek r p.1 p.2.1 p.2.2 dOk st hr hrec
      exact ih _ r hpres hre (fun q hq => hall q (List.mem_cons_of_mem p hq)) htail
    · apply emissions_for_zero_of_late tfk ek htf dOk rest
      intro q hq
      have h1 := hhead q hq
      omega

theorem emissions_for_le_one_aux (tfk ek : Nat) (htf : 0 < tfk) (dOk : Bool)
    (polls : List Poll) :
    ∀ st : AlertMap,
      alertLookup st (tfk, ek) = none →
      polls.Pairwise (fun a b : Poll => a.2.1 ≤ b.2.1) →
      emissions_for tfk ek dOk polls st ≤ 1 := by
  induction polls with
  | nil =>
    intro st _ _
    simp [emissions_for]
  | cons p rest ih =>
    intro st habs hmono
    rw [List.pairwise_cons] at hmono
    obtain ⟨hhead, htail⟩ := hmono
    obtain ⟨ptf, pnow, pf⟩ := p
    rw [emissions_for_cons]
    simp only
    by_cases hkey : ptf = tfk ∧ candle_end ptf pnow = ek
    · obtain ⟨hk1, hk2⟩ := hkey
      subst hk1
      subst hk2
      by_cases hband : 180 ≤ candle_end ptf pnow - pnow ∧ candle_end ptf pnow - pnow ≤ 420
      · cases hc : (collect_coins_info pf).isEmpty with
        | true =>
          have hnoem := check_noemit_eq ptf pnow pf dOk st hband habs hc
          rw [hnoem]
          simp only [Bool.false_and, Bool.false_eq_true, if_false, Nat.zero_add]
          have habs' : alertLookup
              (if (pnow / 60) % 60 = 0 then clean_old_alerts pnow st else st)
              (ptf, candle_end ptf pnow) = none := by
            split_ifs
            · exact alertLookup_clean_none pnow st _ habs
            · exact habs
          exact ih _ habs' htail
        | false =>
          have hemit : (check_timeframe_alerts ptf pnow pf dOk st).2.1 = true := by
            rw [check_emit_eq ptf pnow pf dOk st hband habs hc]
          have hlknew := alertLookup_after_emit ptf pnow pf dOk st hband habs hc
          have htail0 := emissions_for_zero_after_record ptf (candle_end ptf pnow) htf dOk
            rest (check_timeframe_alerts ptf pnow pf dOk st).1 pnow hlknew
            (by omega)
            (fun q hq => hhead q hq) htail
          rw [htail0, hemit]
          simp
      · rw [check_of_out_of_band ptf pnow pf dOk st hband]
        simp only [Bool.false_and, Bool.false_eq_true, if_false, Nat.zero_add]
        exact ih st habs htail
    · have hne : (ptf, candle_end ptf pnow) ≠ (tfk, ek) := by
        intro hcontra
        exact hkey ⟨congrArg Prod.fst hcontra, congrArg Prod.snd hcontra⟩
      have hz : (decide (ptf = tfk) && decide (candle_end ptf pnow = ek)) = false := by
        rcases not_and_or.mp hkey with h | h <;> simp [h]
      rw [hz, Bool.and_false]
      simp only [Bool.false_eq_true, if_false, Nat.zero_add]
      have habs' := alertLookup_step_none tfk ek ptf pnow pf dOk st habs hne
      exact ih _ habs' htail

/-- C1: Pre-close dedup.  For a timeframe `tf` and a candle-close
instant `e`: across any time-ordered sequence of evaluations starting
from a state with no record for `(tf, e)`, at most one alert is emitted
for the key `(tf, e)`; once a record for the current candle end exists,
an evaluation is suppressed with no emission and no state change; and
with a fresh key, a poll inside the tolerance band with successful data
collection emits again. -/
theorem preclose_dedup (tf : Nat) (htf : 0 < tf) :
    (∀ (e : Nat) (dOk : Bool) (polls : List Poll) (st : AlertMap),
        alertLookup st (tf, e) = none →
        polls.Pairwise (fun a b : Poll => a.2.1 ≤ b.2.1) →
        emissions_for tf e dOk polls st ≤ 1)
    ∧ (∀ (now : Nat) (fetches : List (Option (List Candle))) (dOk : Bool)
        (st : AlertMap) (r : Nat),
        alertLookup st (tf, candle_end tf now) = some r →
        check_timeframe_alerts tf now fetches dOk st = (st, false, false))
    ∧ (∀ (now : Nat) (fetches : List (Option (List Candle))) (dOk : Bool)
        (st : AlertMap),
        180 ≤ candle_end tf now - now → candle_end tf now - now ≤ 420 →
        alertLookup st (tf, candle_end tf now) = none →
        (collect_coins_info fetches).isEmpty = false →
        (check_timeframe_alerts tf now fetches dOk st).2.1 = true) :=
  ⟨fun e dOk polls st habs hmono => emissions_for_le_one_aux tf e htf dOk polls st habs hmono,
   fun now fetches dOk st r hs => check_of_lookup_some tf now fetches dOk st r hs,
   fun now fetches dOk st h1 h2 hn hc => by
     rw [check_emit_eq tf now fetches dOk st ⟨h1, h2⟩ hn hc]⟩

/-- C1 witness: three polls one minute apart inside the pre-close band
of the 2-hour candle ending at 7200 s, from a fresh state, emit at most
one alert for that candle end. -/
theorem preclose_dedup_witness :
    emissions_for 2 7200 true
      [(2, 6900, [some []]), (2, 6960, [some []]), (2, 7020, [some []])] [] ≤ 1 :=
  (preclose_dedup 2 (by decide)).1 7200 true
    [(2, 6900, [some []]), (2, 6960, [some []]), (2, 7020, [some []])] [] rfl
    (by simp [List.pairwise_cons])

/-- C9: Per-key error isolation.  A failed symbol does not affect the
collection of the remaining symbols; a delivery failure changes neither
the resulting alert state nor the emission decision; after an emission
whose delivery failed, the alert is not retried (a later evaluation for
the same candle end emits nothing); and a cycle evaluates every
timeframe exactly once regardless of the outcomes. -/
theorem per_key_error_isolation :
    (∀ xs ys : List (Option (List Candle)),
        collect_coins_info (xs ++ none :: ys) = collect_coins_info (xs ++ ys))
    ∧ (∀ (tf now : Nat) (fetches : List (Option (List Candle))) (st : AlertMap),
        (check_timeframe_alerts tf now fetches false st).1
            = (check_timeframe_alerts tf now fetches true st).1
          ∧ (check_timeframe_alerts tf now fetches false st).2.1
            = (check_timeframe_alerts tf now fetches true st).2.1)
    ∧ (∀ (tf now : Nat) (fetches : List (Option (List Candle))) (st st' : AlertMap),
        check_timeframe_alerts tf now fetches false st = (st', true, false) →
        ∀ (now' : Nat) (fetches' : List (Option (List Candle))) (dOk : Bool),
          candle_end tf now' = candle_end tf now →
          (check_timeframe_alerts tf now' fetches' dOk st').2.1 = false)
    ∧ (∀ (dOk : Bool) (polls : List Poll) (st : AlertMap),
        (check_cycle dOk polls st).2.length = polls.length) := by
  refine ⟨?_, ?_, ?_, ?_⟩
  · intro xs ys
    simp [collect_coins_info, List.filterMap_append, List.filterMap_cons]
  · intro tf now fetches st
    simp only [check_timeframe_alerts]
    split_ifs <;> exact ⟨rfl, rfl⟩
  · intro tf now fetches st st' h now' fetches' dOk heq
    by_cases hband : 180 ≤ candle_end tf now - now ∧ candle_end tf now - now ≤ 420
    · cases hlk : alertLookup st (tf, candle_end tf now) with
      | some r =>
        rw [check_of_lookup_some tf now fetches false st r hlk] at h
        simp at h
      | none =>
        cases hc : (collect_coins_info fetches).isEmpty with
        | true =>
          rw [check_noemit_eq tf now fetches false st hband hlk hc] at h
          simp at h
        | false =>
          have hlknew := alertLookup_after_emit tf now fetches false st hband hlk hc
          have hst' : (check_timeframe_alerts tf now fetches false st).1 = st' := by
            rw [h]
          rw [hst'] at hlknew
          rw [check_of_lookup_some tf now' fetches' dOk st' now (by rw [heq]; exact hlknew)]
    · rw [check_of_out_of_band tf now fetches false st hband] at h
      simp at h
  · intro dOk polls st
    induction polls generalizing st with
    | nil => rfl
    | cons p rest ih => simp [check_cycle, ih]

/-- C9 witness: an emission at 6900 s whose delivery failed records the
key, and the next poll inside the band for the same candle end is not
retried. -/
theorem per_key_error_isolation_witness :
    (check_timeframe_alerts 2 6960 [none] true [((2, 7200), 6900)]).2.1 = false :=
  per_key_error_isolation.2.2.1 2 6900 [some []] [] [((2, 7200), 6900)]
    (by decide) 6960 [none] true (by decide)

end CryptoAlert
